import Mathlib

/-!
# Forumyzer backend — verification development

A shallow embedding of the Forumyzer backend (Express + flat-JSON-file
persistence) in Lean 4, together with theorems settling the specified
properties of its classifier, bot-detection counter, timeout voting,
forum persistence model and reply routing.

Conventions of the embedding:
* JavaScript strings are Lean `String`s; `''`-falsiness of a required
  request field is modelled as the empty string.
* Timestamps (`Date.now()`, `new Date().toISOString()`) are integers
  (milliseconds); every function that reads the clock takes the current
  time as an explicit argument.
* `uuidv4()` results are explicit arguments (the generated id / token).
* Mutation of an object found inside the loaded JSON followed by
  `db.save(data)` is modelled as rebuilding the forum list with the
  first matching record replaced.
* A JS `Set` is a duplicate-free list; `Map` state relevant to a claim
  is passed explicitly.
-/

namespace Forumyzer

/-! ## Comment / thread trees

The comment shape used throughout the backend:
`{ id, author, text, category, replies }`, where `replies` is a nested
array of the same shape and `category` may be absent (comments fresh
from the fetchers carry no category). -/

inductive Thread : Type where
  | mk (id author text : String) (category : Option String) (replies : List Thread)
  deriving Repr

def Thread.id : Thread → String
  | .mk i _ _ _ _ => i

def Thread.author : Thread → String
  | .mk _ a _ _ _ => a

def Thread.text : Thread → String
  | .mk _ _ t _ _ => t

def Thread.category : Thread → Option String
  | .mk _ _ _ c _ => c

def Thread.replies : Thread → List Thread
  | .mk _ _ _ _ r => r

/-! ## `backend/services/classifier.js` -/

/-- `defaultCategories` from classifier.js. -/
def defaultCategories : List String := ["spam", "bot", "toxic", "genuine", "question"]

/-- JS `text.toLowerCase()` (character-wise lowering). -/
def lowerStr (s : String) : String := ⟨s.data.map Char.toLower⟩

/-- `pat` occurs as a contiguous substring of `s` — the effect of testing
a regex that is a single literal against `s`. -/
def containsSub (s pat : String) : Bool := decide (pat.data <:+: s.data)

/-- Testing a regex that is an alternation of literals, e.g.
`/http|www|\.com|subscribe/.test(t)`. -/
def matchesAny (t : String) (pats : List String) : Bool :=
  pats.any (fun p => containsSub t p)

/-- The per-comment keyword rule chain of `classifyComments`
(classifier.js): first match over the lowercased text wins. -/
def categoryOf (text : String) : String :=
  let t := lowerStr text
  if matchesAny t ["http", "www", ".com", "subscribe"] then "spam"
  else if matchesAny t ["bot", "automated", "robot"] then "bot"
  else if matchesAny t ["hate", "kill", "stupid", "idiot", "racist", "expletive"] then "toxic"
  else if containsSub t "?" then "question"
  else "genuine"

/-- `classifyComments` (classifier.js): map over the list, returning
`{ ...comment, category }` — replies are untouched. -/
def classifyComments (comments : List Thread) : List Thread :=
  comments.map fun c =>
    match c with
    | Thread.mk i a t _ rs => Thread.mk i a t (some (categoryOf t)) rs

/-- Modelled from the spec (claim wording), for comparison with
`categoryOf`: an ordered rule table; the category of a text is the
right-hand side of the first rule whose pattern list matches the
lowercased text, and `"genuine"` when no rule matches. -/
def specRules : List (List String × String) :=
  [(["http", "www", ".com", "subscribe"], "spam"),
   (["bot", "automated", "robot"], "bot"),
   (["hate", "kill", "stupid", "idiot", "racist", "expletive"], "toxic"),
   (["?"], "question")]

/-- Modelled from the spec (claim wording): first-matching-rule category. -/
def specCategory (text : String) : String :=
  match specRules.find? (fun pr => matchesAny (lowerStr text) pr.1) with
  | some pr => pr.2
  | none => "genuine"

/-! ## `backend/services/forumize.js` — classification and stats

The fetching half of `forumize` is HTTP I/O; the embedding covers the
pure pipeline applied to the fetched `threads` array: classify the
top-level comments, classify each thread's (non-empty) direct replies,
then count comments per category into a stats object. The
floating-point `…Percentage` fields computed afterwards are outside
the scope of every claim and are not modelled. -/

/-- The classification phase of `forumize`: `classifyComments(threads)`,
then `thread.replies = classifyComments(thread.replies)` for each
thread whose replies array is non-empty. -/
def classifyThreadsAndReplies (threads : List Thread) : List Thread :=
  (classifyComments threads).map fun t =>
    match t with
    | Thread.mk i a x c rs =>
      if rs.isEmpty then Thread.mk i a x c rs
      else Thread.mk i a x c (classifyComments rs)

/-- A JS stats object: an association list of numeric fields, in
insertion order. -/
def Stats : Type := List (String × Nat)

/-- Increment `stats[key]`. JS would produce `NaN` when the key is
absent (`undefined++`); the embedding returns `none` in that case. -/
def bumpKey : Stats → String → Option Stats
  | [], _ => none
  | (k, v) :: rest, key =>
    if k = key then some ((k, v + 1) :: rest)
    else (bumpKey rest key).map (fun r => (k, v) :: r)

/-- The stats object as initialised by `forumize`:
`{ totalComments: 0 }` then a `…Count: 0` field per default category. -/
def initStats : Stats :=
  ("totalComments", 0) :: defaultCategories.map (fun c => (c ++ "Count", 0))

/-- The key bumped for a comment: `` `${comment.category}Count` `` —
an absent category interpolates as the string `"undefined"`. -/
def categoryKey (c : Option String) : String :=
  (match c with | some s => s | none => "undefined") ++ "Count"

mutual
/-- `countComments` (forumize.js), one comment: bump `totalComments`,
bump the category counter, then recurse into non-empty replies. -/
def countT (st : Stats) : Thread → Option Stats
  | Thread.mk _ _ _ c rs => do
    let st1 ← bumpKey st "totalComments"
    let st2 ← bumpKey st1 (categoryKey c)
    if rs.isEmpty then pure st2 else countL st2 rs

/-- `countComments` (forumize.js) over a comment array. -/
def countL (st : Stats) : List Thread → Option Stats
  | [] => some st
  | t :: ts => do
    let st1 ← countT st t
    countL st1 ts
end

/-- The pure core of `forumize`: classify, then compute stats. -/
def forumizeCore (threads : List Thread) : Option (List Thread × Stats) :=
  let ct := classifyThreadsAndReplies threads
  (countL initStats ct).map (fun st => (ct, st))

/-! ## `backend/services/botDetection.js` -/

/-- An entry of `userPostingHistory`: `{ timestamp, threadId }`. -/
structure PostRecord where
  timestamp : Int
  threadId : String
  deriving Repr, DecidableEq

/-- `POSTING_THRESHOLD = 10` comments. -/
def POSTING_THRESHOLD : Nat := 10

/-- `TIME_WINDOW = 30 * 1000` milliseconds. -/
def TIME_WINDOW : Int := 30 * 1000

/-- The result record of `detectBot`. -/
structure BotCheck where
  isBot : Bool
  postCountIn30s : Nat
  shouldSendToHell : Bool
  wasFlaggedAsBot : Bool
  deriving Repr, DecidableEq

/-- `detectBot(userId, currentTime)` (botDetection.js), acting on one
user's posting history and the `botUsers` set. Returns the result
record together with the updated history and `botUsers`. -/
def detectBot (history : List PostRecord) (botUsers : List String)
    (userId : String) (currentTime : Int) :
    BotCheck × List PostRecord × List String :=
  let validEntries := history.filter (fun e => currentTime - e.timestamp < TIME_WINDOW)
  let isBot := decide (POSTING_THRESHOLD ≤ validEntries.length)
  let botUsers' := if isBot && !(botUsers.contains userId)
    then userId :: botUsers else botUsers
  (⟨isBot, validEntries.length, isBot, botUsers'.contains userId⟩,
   validEntries, botUsers')

/-- Modelled from the spec (claim wording): a post is counted when its
timestamp is strictly less than 30 seconds old at the current time,
i.e. `currentTime < timestamp + 30000`. -/
def freshPostCount (history : List PostRecord) (currentTime : Int) : Nat :=
  (history.filter (fun e => currentTime < e.timestamp + 30000)).length

/-! ## `backend/services/timeoutSystem.js` — voting -/

/-- A timeout entry, restricted to the fields the voting path touches.
ISO-timestamp fields are integers (milliseconds). -/
structure TimeoutEntry where
  userId : String
  username : String
  status : String
  votesRestore : Nat
  votesKeep : Nat
  restoredAt : Option Int
  onProbation : Bool
  suspendedAt : Option Int
  suspendUntil : Option Int
  deriving Repr, DecidableEq

/-- The per-user record of `userVotes`: two `Set`s of voter ids,
modelled as duplicate-free lists. -/
structure VoteSets where
  restore : List String
  keep : List String
  deriving Repr, DecidableEq

/-- `restoreUser` (timeoutSystem.js), for an entry known to exist. -/
def restoreUser (e : TimeoutEntry) (now : Int) : TimeoutEntry :=
  { e with status := "restored", restoredAt := some now, onProbation := true }

/-- `suspendUser(userId, durationMs)` (timeoutSystem.js), for an entry
known to exist; `suspendUntil = Date.now() + durationMs`. -/
def suspendUser (e : TimeoutEntry) (durationMs : Int) (now : Int) : TimeoutEntry :=
  { e with status := "suspended", suspendedAt := some now,
           suspendUntil := some (now + durationMs) }

/-- `voteOnTimeoutUser(userId, voterId, voteType)` (timeoutSystem.js)
for a user present in `timeoutUsers`: delete the voter from both sets,
add them to the chosen one, refresh the counts, then apply the
thresholds (5 to restore, else 10 to keep → 2-hour suspension). -/
def voteOnTimeoutUser (e : TimeoutEntry) (vs : VoteSets)
    (voterId voteType : String) (now : Int) : TimeoutEntry × VoteSets :=
  let restore1 := vs.restore.erase voterId
  let keep1 := vs.keep.erase voterId
  let vs' : VoteSets :=
    if voteType = "restore" then ⟨voterId :: restore1, keep1⟩
    else ⟨restore1, voterId :: keep1⟩
  let e1 := { e with votesRestore := vs'.restore.length,
                     votesKeep := vs'.keep.length }
  if 5 ≤ e1.votesRestore then (restoreUser e1 now, vs')
  else if 10 ≤ e1.votesKeep then (suspendUser e1 (2 * 60 * 60 * 1000) now, vs')
  else (e1, vs')

/-! ## `backend/models/forum.js` — recursive reply insertion -/

mutual
/-- `pushReply` (forum.js `addReply`) on a single thread: a match on
the thread's own id appends the reply to its replies array; otherwise
the search descends into the (non-empty) replies. `some` plays the
role of the JS `true` return ("inserted here"), carrying the rebuilt
subtree. -/
def pushReplyT (tid : String) (r : Thread) : Thread → Option Thread
  | Thread.mk i a t c replies =>
    if i = tid then some (Thread.mk i a t c (replies ++ [r]))
    else
      match pushReplyL tid r replies with
      | some replies2 => some (Thread.mk i a t c replies2)
      | none => none

/-- `pushReply` (forum.js `addReply`) on a thread array: the `for`
loop — try each thread (its own id, then its subtree) in order,
stopping at the first insertion. -/
def pushReplyL (tid : String) (r : Thread) : List Thread → Option (List Thread)
  | [] => none
  | t :: ts =>
    match pushReplyT tid r t with
    | some t2 => some (t2 :: ts)
    | none =>
      match pushReplyL tid r ts with
      | some ts2 => some (t :: ts2)
      | none => none
end

mutual
/-- Some node of the thread tree has id `tid`. -/
def hasIdT (tid : String) : Thread → Bool
  | Thread.mk i _ _ _ replies => i == tid || hasIdL tid replies

/-- Some node of the forest has id `tid`. -/
def hasIdL (tid : String) : List Thread → Bool
  | [] => false
  | t :: ts => hasIdT tid t || hasIdL tid ts
end

mutual
/-- Number of comments in a thread tree (the node and all descendants). -/
def sizeT : Thread → Nat
  | Thread.mk _ _ _ _ replies => 1 + sizeL replies

/-- Number of comments in a forest. -/
def sizeL : List Thread → Nat
  | [] => 0
  | t :: ts => sizeT t + sizeL ts
end

mutual
/-- Modelled from the spec (claim wording of C6): append the reply to
the replies array of the first thread whose id matches, in depth-first
order (a node before its replies, a thread before its later siblings),
leaving every other thread unchanged; when no id matches, the tree is
returned unchanged. -/
def dfsAppendT (tid : String) (r : Thread) : Thread → Thread
  | Thread.mk i a t c replies =>
    if i = tid then Thread.mk i a t c (replies ++ [r])
    else Thread.mk i a t c (dfsAppendL tid r replies)

/-- Modelled from the spec (claim wording of C6), forest version: only
the first thread (in depth-first order) containing a match is touched. -/
def dfsAppendL (tid : String) (r : Thread) : List Thread → List Thread
  | [] => []
  | t :: ts =>
    if hasIdT tid t then dfsAppendT tid r t :: ts
    else t :: dfsAppendL tid r ts
end

/-! ## `backend/db.js` / `backend/db-async.js` and the stored records -/

/-- A signed-in user record (models/user.js). -/
structure UserRec where
  id : String
  googleId : String
  email : String
  name : String
  picture : String
  createdAt : Int
  subscriptionTier : String
  deriving Repr, DecidableEq

/-- The `forumData` payload persisted with a forum. The backend only
ever inspects its `threads` array (reply insertion, audio summary);
byte-identity of the JSON is modelled as equality of this structure. -/
structure ForumData where
  threads : List Thread
  deriving Repr

/-- A stored forumyzed forum record (forum.js `create`). -/
structure Forum where
  id : String
  videoId : String
  videoTitle : String
  videoChannel : String
  forumData : ForumData
  forumyzedAt : Int
  createdAt : Int
  updatedAt : Int
  userId : Option String
  isPublic : Bool
  shareToken : Option String
  deriving Repr

/-- The persisted store: `{ forums: [], users: [], subscriptions: [] }`.
No code in the repository ever reads or writes an element of
`subscriptions`, so its element type is immaterial. -/
structure DB where
  forums : List Forum
  users : List UserRec
  subscriptions : List String
  deriving Repr

/-- The empty structure returned by `load` on failure. -/
def emptyDB : DB := { forums := [], users := [], subscriptions := [] }

/-- The observable state of the DB file: absent, holding text that
`JSON.parse` rejects, or holding a valid serialised store. -/
inductive FileState : Type where
  | missing : FileState
  | invalid : FileState
  | valid (d : DB) : FileState
  deriving Repr

/-- `load` (db.js / db-async.js): read and parse the file; on any
failure (missing file or invalid JSON) return the empty structure. -/
def load : FileState → DB
  | .missing => emptyDB
  | .invalid => emptyDB
  | .valid d => d

/-! ## `backend/models/forum.js` — the `ForumModel` operations

`data.forums.find(...)` followed by field mutation and `db.save(data)`
is modelled by `updateFirst`: rebuild the list with the first matching
record replaced. -/

/-- Replace the first element satisfying `p` by its image under `g`. -/
def updateFirst (p : α → Bool) (g : α → α) : List α → List α
  | [] => []
  | x :: xs => if p x then g x :: xs else x :: updateFirst p g xs

/-- The body of `POST /api/forum/save`: the fields `create` reads. -/
structure CreatePayload where
  videoId : String
  videoTitle : String
  videoChannel : String
  forumData : ForumData
  deriving Repr

/-- `ForumModel.create(forumData, userId)`: build the record (fresh
uuid `gid`, clock `now`, `isPublic: false`, `shareToken: null`), push
it onto `data.forums` and save. Returns the record and the new store. -/
def ForumModel.create (p : CreatePayload) (userId : Option String)
    (gid : String) (now : Int) (db : DB) : Forum × DB :=
  let f : Forum :=
    { id := gid, videoId := p.videoId, videoTitle := p.videoTitle,
      videoChannel := p.videoChannel, forumData := p.forumData,
      forumyzedAt := now, createdAt := now, updatedAt := now,
      userId := userId, isPublic := false, shareToken := none }
  (f, { db with forums := db.forums ++ [f] })

/-- `ForumModel.findById(id)`. -/
def ForumModel.findById (id : String) (db : DB) : Option Forum :=
  db.forums.find? (fun f => f.id == id)

/-- `ForumModel.findByUser(userId)`. -/
def ForumModel.findByUser (userId : Option String) (db : DB) : List Forum :=
  db.forums.filter (fun f => f.userId == userId)

/-- `ForumModel.findByShareToken(token)`. -/
def ForumModel.findByShareToken (tok : String) (db : DB) : Option Forum :=
  db.forums.find? (fun f => f.shareToken == some tok)

/-- The field mutation `generateShareToken` performs on the found
forum: set the token, mark public, refresh `updatedAt`. -/
def tokUpd (tok : String) (now : Int) (f : Forum) : Forum :=
  { f with shareToken := some tok, isPublic := true, updatedAt := now }

/-- `ForumModel.generateShareToken(id)`: find the forum (null when
absent), set a fresh 12-character token `tok`, mark it public, refresh
`updatedAt` and save. Returns the token and the new store. -/
def ForumModel.generateShareToken (id tok : String) (now : Int) (db : DB) :
    Option String × DB :=
  match db.forums.find? (fun f => f.id == id) with
  | none => (none, db)
  | some _ =>
    (some tok, { db with forums := updateFirst (fun f => f.id == id) (tokUpd tok now) db.forums })

/-- `ForumModel.addReply(forumId, threadId, reply)`: find the forum
(null when absent), run the recursive `pushReply` over its threads —
whose boolean result is discarded, so a failed search leaves the
threads as they were — refresh `updatedAt` and save. Returns the
updated forum record and the new store. -/
def ForumModel.addReply (forumId threadId : String) (reply : Thread)
    (now : Int) (db : DB) : Option Forum × DB :=
  match db.forums.find? (fun f => f.id == forumId) with
  | none => (none, db)
  | some f =>
    let f' : Forum :=
      { f with
        forumData := ⟨(pushReplyL threadId reply f.forumData.threads).getD
                        f.forumData.threads⟩,
        updatedAt := now }
    (some f',
     { db with forums := updateFirst (fun g => g.id == forumId) (fun _ => f') db.forums })

/-! ## `POST /api/forum/:id/reply` (server.js)

The route for a requester not flagged as a bot: validate `threadId`
and `text` (a missing field is the empty string), build the reply
object (fresh uuid `rid`, `author || 'Anonymous'`,
`category || 'genuine'`, empty replies) and delegate to
`ForumModel.addReply`; `null` becomes HTTP 404, otherwise HTTP 200
with the updated forum. The flagged-user branch differs only in the
reply's category (`'hell'`) and a warning string in the response body,
and routes through the same `addReply` call; the in-memory
bot-detection state it updates is embedded separately (`detectBot`). -/

/-- The reply object built by the route. -/
def mkReply (rid author text category : String) : Thread :=
  Thread.mk rid (if author = "" then "Anonymous" else author) text
    (some (if category = "" then "genuine" else category)) []

/-- The route: HTTP status, response forum (when 200) and new store. -/
def replyRoute (forumId threadId author text category rid : String)
    (now : Int) (db : DB) : Nat × Option Forum × DB :=
  if threadId = "" || text = "" then (400, none, db)
  else
    match ForumModel.addReply forumId threadId (mkReply rid author text category) now db with
    | (none, db') => (404, none, db')
    | (some f, db') => (200, some f, db')

/-! ## Helper lemmas -/

theorem find?_append_none {α : Type} {p : α → Bool} {l₁ l₂ : List α}
    (h : l₁.find? p = none) : (l₁ ++ l₂).find? p = l₂.find? p := by
  induction l₁ with
  | nil => rfl
  | cons a l ih =>
    rw [List.find?_cons] at h
    cases hp : p a with
    | true => rw [hp] at h; exact absurd h (by simp)
    | false =>
      rw [hp] at h
      simpa [List.find?_cons, hp] using ih h

theorem find?_updateFirst_some {α : Type} {p : α → Bool} {g : α → α} :
    ∀ {l : List α} {x : α}, l.find? p = some x → p (g x) = true →
      (updateFirst p g l).find? p = some (g x) := by
  intro l
  induction l with
  | nil => intro x h; simp [List.find?] at h
  | cons a l ih =>
    intro x h hg
    rw [List.find?_cons] at h
    cases hp : p a with
    | true =>
      rw [hp] at h
      simp only [Option.some.injEq] at h
      subst h
      simp [updateFirst, hp, List.find?_cons, hg]
    | false =>
      rw [hp] at h
      simp only [updateFirst, hp, if_false, List.find?_cons, Bool.false_eq_true]
      exact ih h hg

/-! ## C10 — `load` is total at the public interface -/

/-- C10: when the DB file is missing or holds invalid JSON, `load`
returns the empty structure `{forums: [], users: [], subscriptions: []}`,
so every read accessor behaves on a missing or corrupt store exactly
as on an empty store: `findById` and `findByShareToken` return nothing
and `findByUser` returns the empty list. -/
theorem C10_load_total_on_failure :
    load .missing = emptyDB ∧ load .invalid = emptyDB ∧
    (∀ id, ForumModel.findById id (load .missing) = none ∧
           ForumModel.findById id (load .invalid) = none ∧
           ForumModel.findById id emptyDB = none) ∧
    (∀ u, ForumModel.findByUser u (load .missing) = [] ∧
          ForumModel.findByUser u (load .invalid) = [] ∧
          ForumModel.findByUser u emptyDB = []) ∧
    (∀ t, ForumModel.findByShareToken t (load .missing) = none ∧
          ForumModel.findByShareToken t (load .invalid) = none ∧
          ForumModel.findByShareToken t emptyDB = none) := by
  refine ⟨rfl, rfl, fun id => ⟨rfl, rfl, rfl⟩, fun u => ⟨rfl, rfl, rfl⟩,
    fun t => ⟨rfl, rfl, rfl⟩⟩

/-! ## C2 — bot-detection sliding window -/

/-- C2: `detectBot` reports `isBot = true` exactly when at least
`POSTING_THRESHOLD` (10) recorded posts are strictly less than
`TIME_WINDOW` (30 s) old at the current time; a post exactly 30
seconds old (or older) is excluded from the count. -/
theorem C2_detectBot_threshold (history : List PostRecord)
    (botUsers : List String) (userId : String) (now : Int) :
    (detectBot history botUsers userId now).1.isBot = true ↔
      POSTING_THRESHOLD ≤ freshPostCount history now := by
  have hfilter : history.filter (fun e => decide (now - e.timestamp < TIME_WINDOW)) =
      history.filter (fun e => decide (now < e.timestamp + 30000)) := by
    apply List.filter_congr
    intro e _
    simp only [decide_eq_decide]
    unfold TIME_WINDOW
    omega
  unfold detectBot freshPostCount
  simp only [decide_eq_true_iff]
  rw [hfilter]

/-! ## C8 — timeout voting thresholds -/

/-- C8: for a user in timeout, one call of `voteOnTimeoutUser` keeps
the two voter sets duplicate-free (so their lengths count distinct
voters), records the counts, and applies the hard-coded thresholds:
5 distinct restore voters make the status `"restored"`; otherwise 10
distinct keep voters make the status `"suspended"` with
`suspendUntil` exactly 2 hours after the vote time; below both
thresholds the status is unchanged. -/
theorem C8_vote_thresholds (e : TimeoutEntry) (vs : VoteSets)
    (voterId voteType : String) (now : Int)
    (hr : vs.restore.Nodup) (hk : vs.keep.Nodup) :
    (voteOnTimeoutUser e vs voterId voteType now).2.restore.Nodup ∧
    (voteOnTimeoutUser e vs voterId voteType now).2.keep.Nodup ∧
    (voteOnTimeoutUser e vs voterId voteType now).1.votesRestore =
      (voteOnTimeoutUser e vs voterId voteType now).2.restore.length ∧
    (voteOnTimeoutUser e vs voterId voteType now).1.votesKeep =
      (voteOnTimeoutUser e vs voterId voteType now).2.keep.length ∧
    (if 5 ≤ (voteOnTimeoutUser e vs voterId voteType now).2.restore.length then
      (voteOnTimeoutUser e vs voterId voteType now).1.status = "restored"
     else if 10 ≤ (voteOnTimeoutUser e vs voterId voteType now).2.keep.length then
      (voteOnTimeoutUser e vs voterId voteType now).1.status = "suspended" ∧
      (voteOnTimeoutUser e vs voterId voteType now).1.suspendUntil =
        some (now + 2 * 60 * 60 * 1000)
     else (voteOnTimeoutUser e vs voterId voteType now).1.status = e.status) := by
  have hr1 : (vs.restore.erase voterId).Nodup := hr.erase voterId
  have hk1 : (vs.keep.erase voterId).Nodup := hk.erase voterId
  have hrm : voterId ∉ vs.restore.erase voterId := fun hmem =>
    absurd (hr.mem_erase_iff.mp hmem).1 (by simp)
  have hkm : voterId ∉ vs.keep.erase voterId := fun hmem =>
    absurd (hk.mem_erase_iff.mp hmem).1 (by simp)
  unfold voteOnTimeoutUser restoreUser suspendUser
  by_cases hvt : voteType = "restore" <;>
    simp only [hvt, if_true, if_false, reduceIte] <;>
    split <;>
    try split
  all_goals
    simp_all [List.nodup_cons]

/-- Witness for C8: a fifth distinct restore vote on a pending entry
flips its status to `"restored"`. -/
theorem C8_vote_thresholds_witness :
    (["a", "b", "c", "d"] : List String).Nodup ∧
    (voteOnTimeoutUser ⟨"u", "n", "pending", 4, 0, none, false, none, none⟩
      ⟨["a", "b", "c", "d"], []⟩ "e" "restore" 0).1.status = "restored" := by
  refine ⟨by decide, ?_⟩
  have h := C8_vote_thresholds ⟨"u", "n", "pending", 4, 0, none, false, none, none⟩
    ⟨["a", "b", "c", "d"], []⟩ "e" "restore" 0 (by decide) (by decide)
  have h' := h.2.2.2.2
  have h5 : 5 ≤ (voteOnTimeoutUser ⟨"u", "n", "pending", 4, 0, none, false, none, none⟩
      ⟨["a", "b", "c", "d"], []⟩ "e" "restore" 0).2.restore.length := by decide
  rw [if_pos h5] at h'
  exact h'

/-! ## C3 — keyword classifier -/

theorem lower_preserves_contains (s pat : String) (hpat : lowerStr pat = pat)
    (h : containsSub s pat = true) : containsSub (lowerStr s) pat = true := by
  rw [containsSub, decide_eq_true_iff] at h ⊢
  obtain ⟨u, v, hsv⟩ := h
  have hdata : (lowerStr pat).data = pat.data := congrArg String.data hpat
  have hmap : pat.data.map Char.toLower = pat.data := hdata
  refine ⟨u.map Char.toLower, v.map Char.toLower, ?_⟩
  show u.map Char.toLower ++ pat.data ++ v.map Char.toLower = s.data.map Char.toLower
  rw [← hmap, ← List.map_append, ← List.map_append, hsv]

theorem categoryOf_eq_specCategory (text : String) :
    categoryOf text = specCategory text := by
  have hq : matchesAny (lowerStr text) ["?"] = containsSub (lowerStr text) "?" := by
    simp [matchesAny]
  by_cases h1 : matchesAny (lowerStr text) ["http", "www", ".com", "subscribe"] = true
  · simp [categoryOf, specCategory, specRules, List.find?_cons, h1]
  · by_cases h2 : matchesAny (lowerStr text) ["bot", "automated", "robot"] = true
    · simp_all [categoryOf, specCategory, specRules, List.find?_cons]
    · by_cases h3 : matchesAny (lowerStr text)
          ["hate", "kill", "stupid", "idiot", "racist", "expletive"] = true
      · simp_all [categoryOf, specCategory, specRules, List.find?_cons]
      · by_cases h4 : containsSub (lowerStr text) "?" = true
        · simp_all [categoryOf, specCategory, specRules, List.find?_cons]
        · simp_all [categoryOf, specCategory, specRules, List.find?_cons]

theorem categoryOf_spam_of_http (text : String)
    (h : containsSub text "http" = true) : categoryOf text = "spam" := by
  have hl : containsSub (lowerStr text) "http" = true :=
    lower_preserves_contains text "http" (by decide) h
  have hm : matchesAny (lowerStr text) ["http", "www", ".com", "subscribe"] = true := by
    simp [matchesAny]
    exact Or.inl hl
  simp [categoryOf, hm]

/-- C3: `classifyComments` gives every comment the category assigned
by the first matching rule over its lowercased text, in the fixed
precedence spam → bot → toxic → question → genuine (the rule table
`specRules` with default `"genuine"`); in particular every comment
whose text contains `"http"` is classified `"spam"`. -/
theorem C3_classifyComments_rules (comments : List Thread) :
    classifyComments comments = comments.map (fun c =>
      Thread.mk c.id c.author c.text (some (specCategory c.text)) c.replies) ∧
    ∀ c ∈ classifyComments comments, containsSub c.text "http" = true →
      c.category = some "spam" := by
  constructor
  · unfold classifyComments
    apply List.map_congr_left
    intro c _
    cases c with
    | mk i a t cat rs =>
      simp [Thread.id, Thread.author, Thread.text, Thread.replies,
        categoryOf_eq_specCategory]
  · intro c hc hhttp
    unfold classifyComments at hc
    rw [List.mem_map] at hc
    obtain ⟨c0, _, hc0⟩ := hc
    cases c0 with
    | mk i a t cat rs =>
      subst hc0
      simp only [Thread.text] at hhttp
      simp [Thread.category, categoryOf_spam_of_http t hhttp]

/-! ## C4 — save / fetch round trip -/

/-- C4: saving a forum payload with `ForumModel.create`
(`POST /api/forum/save`) and fetching with `ForumModel.findById`
(`GET /api/forum/:id`) under the returned id yields a record whose
`forumData` is identical to the payload's `forumData` — provided the
generated uuid does not collide with a stored forum id. -/
theorem C4_create_findById_roundtrip (p : CreatePayload) (userId : Option String)
    (gid : String) (now : Int) (db : DB)
    (hfresh : ForumModel.findById gid db = none) :
    ForumModel.findById gid (ForumModel.create p userId gid now db).2 =
      some (ForumModel.create p userId gid now db).1 ∧
    (ForumModel.create p userId gid now db).1.forumData = p.forumData := by
  unfold ForumModel.create
  refine ⟨?_, rfl⟩
  unfold ForumModel.findById at hfresh ⊢
  rw [find?_append_none hfresh]
  simp [List.find?_cons]

/-- Witness for C4 on the empty store. -/
theorem C4_create_findById_roundtrip_witness :
    ForumModel.findById "g" emptyDB = none ∧
    (ForumModel.findById "g"
        (ForumModel.create ⟨"v", "t", "c", ⟨[]⟩⟩ none "g" 0 emptyDB).2 =
      some (ForumModel.create ⟨"v", "t", "c", ⟨[]⟩⟩ none "g" 0 emptyDB).1 ∧
    (ForumModel.create ⟨"v", "t", "c", ⟨[]⟩⟩ none "g" 0 emptyDB).1.forumData =
      (⟨[]⟩ : ForumData)) :=
  ⟨rfl, C4_create_findById_roundtrip ⟨"v", "t", "c", ⟨[]⟩⟩ none "g" 0 emptyDB rfl⟩

/-! ## C7 — a share token grants public read access to its forum -/

theorem find?_token_updateFirst (id tok : String) (now : Int) :
    ∀ (l : List Forum) (f0 : Forum),
      (∀ f ∈ l, f.shareToken ≠ some tok) →
      l.find? (fun f => f.id == id) = some f0 →
      (updateFirst (fun f => f.id == id) (tokUpd tok now) l).find?
          (fun f => f.shareToken == some tok) =
        some (tokUpd tok now f0) := by
  intro l
  induction l with
  | nil => intro f0 _ hfind; simp [List.find?] at hfind
  | cons a l ih =>
    intro f0 hfresh hfind
    rw [List.find?_cons] at hfind
    cases hp : (a.id == id) with
    | true =>
      rw [hp] at hfind
      simp only [Option.some.injEq] at hfind
      subst hfind
      simp [updateFirst, hp, List.find?_cons, tokUpd]
    | false =>
      rw [hp] at hfind
      have ha : (a.shareToken == some tok) = false :=
        beq_eq_false_iff_ne.mpr (hfresh a (by simp))
      simp only [updateFirst, hp, if_false, List.find?_cons, ha, Bool.false_eq_true]
      exact ih f0 (fun f hf => hfresh f (by simp [hf])) hfind

/-- C7: when forum `id` exists and the generated token `tok` is not
already held by any stored forum, `POST /api/forum/:id/share` returns
`tok`, and `GET /api/forum/share/:tok` afterwards returns exactly the
record stored under `id`, which is now public. -/
theorem C7_share_token_grants_access (db : DB) (id tok : String) (now : Int)
    (f0 : Forum) (hex : ForumModel.findById id db = some f0)
    (hfresh : ∀ f ∈ db.forums, f.shareToken ≠ some tok) :
    (ForumModel.generateShareToken id tok now db).1 = some tok ∧
    ∃ f', ForumModel.findByShareToken tok
            (ForumModel.generateShareToken id tok now db).2 = some f' ∧
      ForumModel.findById id (ForumModel.generateShareToken id tok now db).2 = some f' ∧
      f'.id = id ∧ f'.isPublic = true := by
  unfold ForumModel.findById at hex
  have hid := List.find?_some hex
  simp only at hid
  have hgen : ForumModel.generateShareToken id tok now db =
      (some tok,
       { db with forums := updateFirst (fun f => f.id == id) (tokUpd tok now) db.forums }) := by
    unfold ForumModel.generateShareToken
    rw [hex]
  rw [hgen]
  refine ⟨rfl, tokUpd tok now f0, ?_, ?_, ?_, rfl⟩
  · exact find?_token_updateFirst id tok now db.forums f0 hfresh hex
  · unfold ForumModel.findById
    exact find?_updateFirst_some hex hid
  · show f0.id = id
    exact beq_iff_eq.mp hid

/-- Witness for C7 on a store holding one token-less forum. -/
theorem C7_share_token_grants_access_witness :
    (ForumModel.generateShareToken "f1" "tok" 5
        ⟨[⟨"f1", "v", "t", "c", ⟨[]⟩, 0, 0, 0, none, false, none⟩], [], []⟩).1 = some "tok" ∧
    ∃ f', ForumModel.findByShareToken "tok"
            (ForumModel.generateShareToken "f1" "tok" 5
              ⟨[⟨"f1", "v", "t", "c", ⟨[]⟩, 0, 0, 0, none, false, none⟩], [], []⟩).2 = some f' ∧
      ForumModel.findById "f1"
          (ForumModel.generateShareToken "f1" "tok" 5
            ⟨[⟨"f1", "v", "t", "c", ⟨[]⟩, 0, 0, 0, none, false, none⟩], [], []⟩).2 = some f' ∧
      f'.id = "f1" ∧ f'.isPublic = true :=
  C7_share_token_grants_access
    ⟨[⟨"f1", "v", "t", "c", ⟨[]⟩, 0, 0, 0, none, false, none⟩], [], []⟩ "f1" "tok" 5
    ⟨"f1", "v", "t", "c", ⟨[]⟩, 0, 0, 0, none, false, none⟩ rfl
    (by intro f hf; rw [List.mem_singleton] at hf; subst hf; simp)

/-! ## C5 — regenerating a share token overwrites the previous one -/

/-- C5: generating a share token twice for an existing forum succeeds
both times, leaves the forum holding the second token as its only
`shareToken`, and the first token (distinct, being a fresh uuid slice)
no longer retrieves that forum through `findByShareToken`. -/
theorem C5_share_token_overwrite (db : DB) (id tok1 tok2 : String) (t1 t2 : Int)
    (f0 : Forum) (hex : ForumModel.findById id db = some f0) (htok : tok1 ≠ tok2) :
    (ForumModel.generateShareToken id tok1 t1 db).1 = some tok1 ∧
    (ForumModel.generateShareToken id tok2 t2
        (ForumModel.generateShareToken id tok1 t1 db).2).1 = some tok2 ∧
    ∃ f', ForumModel.findById id
            (ForumModel.generateShareToken id tok2 t2
              (ForumModel.generateShareToken id tok1 t1 db).2).2 = some f' ∧
      f'.shareToken = some tok2 ∧
      ∀ g, ForumModel.findByShareToken tok1
              (ForumModel.generateShareToken id tok2 t2
                (ForumModel.generateShareToken id tok1 t1 db).2).2 = some g →
        g ≠ f' := by
  unfold ForumModel.findById at hex
  have hid := List.find?_some hex
  simp only at hid
  have hgen1 : ForumModel.generateShareToken id tok1 t1 db =
      (some tok1,
       { db with forums := updateFirst (fun f => f.id == id) (tokUpd tok1 t1) db.forums }) := by
    unfold ForumModel.generateShareToken
    rw [hex]
  have hfind1 : (updateFirst (fun f => f.id == id) (tokUpd tok1 t1) db.forums).find?
      (fun f => f.id == id) = some (tokUpd tok1 t1 f0) :=
    find?_updateFirst_some hex hid
  rw [hgen1]
  have hgen2 : ForumModel.generateShareToken id tok2 t2
      { db with forums := updateFirst (fun f => f.id == id) (tokUpd tok1 t1) db.forums } =
      (some tok2,
       { db with forums := updateFirst (fun f => f.id == id) (tokUpd tok2 t2) (updateFirst (fun f => f.id == id) (tokUpd tok1 t1) db.forums) }) := by
    unfold ForumModel.generateShareToken
    rw [show ({ db with forums := updateFirst (fun f => f.id == id) (tokUpd tok1 t1) db.forums } : DB).forums = updateFirst (fun f => f.id == id) (tokUpd tok1 t1) db.forums from rfl, hfind1]
  rw [hgen2]
  refine ⟨rfl, rfl, tokUpd tok2 t2 (tokUpd tok1 t1 f0), ?_, rfl, ?_⟩
  · unfold ForumModel.findById
    exact find?_updateFirst_some hfind1 hid
  · intro g hg hgf
    unfold ForumModel.findByShareToken at hg
    have := List.find?_some hg
    simp only at this
    have hgtok : g.shareToken = some tok1 := beq_iff_eq.mp this
    rw [hgf] at hgtok
    exact htok (by simpa [tokUpd] using hgtok.symm)

/-- Witness for C5 on a store holding one token-less forum. -/
theorem C5_share_token_overwrite_witness :
    (ForumModel.generateShareToken "f1" "a" 1
        ⟨[⟨"f1", "v", "t", "c", ⟨[]⟩, 0, 0, 0, none, false, none⟩], [], []⟩).1 = some "a" ∧
    (ForumModel.generateShareToken "f1" "b" 2
        (ForumModel.generateShareToken "f1" "a" 1
          ⟨[⟨"f1", "v", "t", "c", ⟨[]⟩, 0, 0, 0, none, false, none⟩], [], []⟩).2).1 = some "b" ∧
    ∃ f', ForumModel.findById "f1"
            (ForumModel.generateShareToken "f1" "b" 2
              (ForumModel.generateShareToken "f1" "a" 1
                ⟨[⟨"f1", "v", "t", "c", ⟨[]⟩, 0, 0, 0, none, false, none⟩], [], []⟩).2).2 = some f' ∧
      f'.shareToken = some "b" ∧
      ∀ g, ForumModel.findByShareToken "a"
              (ForumModel.generateShareToken "f1" "b" 2
                (ForumModel.generateShareToken "f1" "a" 1
                  ⟨[⟨"f1", "v", "t", "c", ⟨[]⟩, 0, 0, 0, none, false, none⟩], [], []⟩).2).2 = some g →
        g ≠ f' :=
  C5_share_token_overwrite
    ⟨[⟨"f1", "v", "t", "c", ⟨[]⟩, 0, 0, 0, none, false, none⟩], [], []⟩ "f1" "a" "b" 1 2
    ⟨"f1", "v", "t", "c", ⟨[]⟩, 0, 0, 0, none, false, none⟩ rfl (by decide)

/-! ## C6 — reply insertion reaches the first matching thread -/

mutual
theorem pushT_none (tid : String) (r : Thread) :
    ∀ t : Thread, hasIdT tid t = false → pushReplyT tid r t = none
  | Thread.mk i a x c rs, h => by
    have hparts : (i == tid) = false ∧ hasIdL tid rs = false := by
      simpa [hasIdT] using h
    have hid : ¬ i = tid := by simpa using hparts.1
    simp only [pushReplyT, if_neg hid]
    rw [pushL_none tid r rs hparts.2]

theorem pushL_none (tid : String) (r : Thread) :
    ∀ ts : List Thread, hasIdL tid ts = false → pushReplyL tid r ts = none
  | [], _ => rfl
  | t :: ts, h => by
    have hparts : hasIdT tid t = false ∧ hasIdL tid ts = false := by
      simpa [hasIdL] using h
    simp only [pushReplyL]
    rw [pushT_none tid r t hparts.1, pushL_none tid r ts hparts.2]
end

mutual
theorem pushT_eq_dfs (tid : String) (r : Thread) :
    ∀ t : Thread, hasIdT tid t = true → pushReplyT tid r t = some (dfsAppendT tid r t)
  | Thread.mk i a x c rs, h => by
    by_cases hid : i = tid
    · simp [pushReplyT, dfsAppendT, hid]
    · have hhl : hasIdL tid rs = true := by
        simpa [hasIdT, hid] using h
      simp only [pushReplyT, dfsAppendT, if_neg hid]
      rw [pushL_eq_dfs tid r rs hhl]

theorem pushL_eq_dfs (tid : String) (r : Thread) :
    ∀ ts : List Thread, hasIdL tid ts = true → pushReplyL tid r ts = some (dfsAppendL tid r ts)
  | t :: ts, h => by
    cases hht : hasIdT tid t with
    | true =>
      simp only [pushReplyL, dfsAppendL, hht, if_true]
      rw [pushT_eq_dfs tid r t hht]
    | false =>
      have hhl : hasIdL tid ts = true := by
        simpa [hasIdL, hht] using h
      simp only [pushReplyL, dfsAppendL, hht, Bool.false_eq_true, if_false]
      rw [pushT_none tid r t hht, pushL_eq_dfs tid r ts hhl]
end

theorem sizeL_append : ∀ l₁ l₂ : List Thread, sizeL (l₁ ++ l₂) = sizeL l₁ + sizeL l₂
  | [], l₂ => by simp [sizeL]
  | t :: ts, l₂ => by
    simp only [List.cons_append, sizeL]
    rw [show ts.append l₂ = ts ++ l₂ from rfl, sizeL_append ts l₂]
    omega

mutual
theorem size_dfsT (tid : String) (r : Thread) :
    ∀ t : Thread, hasIdT tid t = true → sizeT (dfsAppendT tid r t) = sizeT t + sizeT r
  | Thread.mk i a x c rs, h => by
    by_cases hid : i = tid
    · simp only [dfsAppendT, if_pos hid, sizeT]
      rw [sizeL_append]
      simp [sizeL]
      omega
    · have hhl : hasIdL tid rs = true := by
        simpa [hasIdT, hid] using h
      simp only [dfsAppendT, if_neg hid, sizeT]
      rw [size_dfsL tid r rs hhl]
      omega

theorem size_dfsL (tid : String) (r : Thread) :
    ∀ ts : List Thread, hasIdL tid ts = true → sizeL (dfsAppendL tid r ts) = sizeL ts + sizeT r
  | t :: ts, h => by
    cases hht : hasIdT tid t with
    | true =>
      simp only [dfsAppendL, hht, if_true, sizeL]
      rw [size_dfsT tid r t hht]
      omega
    | false =>
      have hhl : hasIdL tid ts = true := by
        simpa [hasIdL, hht] using h
      simp only [dfsAppendL, hht, Bool.false_eq_true, if_false, sizeL]
      rw [size_dfsL tid r ts hhl]
      omega
end

/-- The record `addReply` stores and returns for forum `f`: threads
rewritten by the reply insertion, `updatedAt` refreshed. -/
def updatedForum (f : Forum) (threadId : String) (rep : Thread) (now : Int) : Forum :=
  { f with forumData := ⟨dfsAppendL threadId rep f.forumData.threads⟩, updatedAt := now }

/-- C6: when forum `forumId` exists and some (possibly nested) thread
matches `threadId`, the reply route answers 200 with the forum whose
thread forest is rewritten by `dfsAppendL` — the reply appended to the
replies array of the first matching thread in depth-first order, every
other thread unchanged — stores that same record, and the forest has
grown by exactly one comment. -/
theorem C6_reply_appends_dfs_first (db : DB)
    (forumId threadId author text category rid : String) (now : Int) (f : Forum)
    (hex : ForumModel.findById forumId db = some f)
    (hhas : hasIdL threadId f.forumData.threads = true)
    (htid : threadId ≠ "") (htext : text ≠ "") :
    replyRoute forumId threadId author text category rid now db =
      (200, some (updatedForum f threadId (mkReply rid author text category) now),
       { db with forums := updateFirst (fun g => g.id == forumId) (fun _ => updatedForum f threadId (mkReply rid author text category) now) db.forums }) ∧
    sizeL (dfsAppendL threadId (mkReply rid author text category) f.forumData.threads) =
      sizeL f.forumData.threads + 1 := by
  unfold ForumModel.findById at hex
  have haddR : ForumModel.addReply forumId threadId (mkReply rid author text category) now db =
      (some (updatedForum f threadId (mkReply rid author text category) now),
       { db with forums := updateFirst (fun g => g.id == forumId) (fun _ => updatedForum f threadId (mkReply rid author text category) now) db.forums }) := by
    simp only [ForumModel.addReply, hex]
    rw [pushL_eq_dfs threadId (mkReply rid author text category) f.forumData.threads hhas]
    rfl
  constructor
  · unfold replyRoute
    have hcond : (threadId = "" || text = "") = false := by
      simp [htid, htext]
    rw [hcond]
    simp only [Bool.false_eq_true, if_false, haddR]
  · have hsize := size_dfsL threadId (mkReply rid author text category)
      f.forumData.threads hhas
    simpa [mkReply, sizeT, sizeL] using hsize

/-- The store used to witness C6: one forum with a single thread. -/
def c6DB : DB :=
  ⟨[⟨"f1", "v", "t", "c", ⟨[Thread.mk "t1" "al" "hello" (some "genuine") []]⟩,
     0, 0, 0, none, false, none⟩], [], []⟩

/-- Witness for C6: replying to thread `t1` of forum `f1` answers 200
and grows the forest from one comment to two. -/
theorem C6_reply_appends_dfs_first_witness :
    (replyRoute "f1" "t1" "bob" "hi" "" "r1" 7 c6DB).1 = 200 ∧
    sizeL (dfsAppendL "t1" (mkReply "r1" "bob" "hi" "")
      [Thread.mk "t1" "al" "hello" (some "genuine") []]) = 2 := by
  have h := C6_reply_appends_dfs_first c6DB "f1" "t1" "bob" "hi" "" "r1" 7
    ⟨"f1", "v", "t", "c", ⟨[Thread.mk "t1" "al" "hello" (some "genuine") []]⟩,
     0, 0, 0, none, false, none⟩ rfl rfl (by decide) (by decide)
  constructor
  · rw [h.1]
  · have h2 := h.2
    simpa [sizeL, sizeT] using h2

/-! ## C1 — reply to a non-existent thread id

`addReply` discards the boolean result of `pushReply` and returns the
forum after bumping `updatedAt` and re-saving, so the route's 404
branch is unreachable when only the thread (not the forum) is missing
— even though the second server variant labels that branch
`'Forum or thread not found'`. The evaluation below exhibits the
behaviour at a concrete store. -/

/-- The single stored forum used for the C1 evaluation: one thread
`t1`, `updatedAt = 0`. -/
def c1Forum : Forum :=
  ⟨"f1", "v", "t", "c", ⟨[Thread.mk "t1" "al" "hello" (some "genuine") []]⟩,
   0, 0, 0, none, false, none⟩

/-- The store used for the C1 evaluation. -/
def c1DB : DB := ⟨[c1Forum], [], []⟩

/-- C1 evaluation: thread `t9` matches nothing in forum `f1`, yet the
reply route answers HTTP 200 (not 404) and the stored record's
`updatedAt` changes from 0 to the request time 999 (the threads are
left unchanged, so no reply is appended). -/
theorem C1_missing_thread_code_eval :
    hasIdL "t9" c1Forum.forumData.threads = false ∧
    (replyRoute "f1" "t9" "bob" "hi" "" "r1" 999 c1DB).1 = 200 ∧
    (ForumModel.findById "f1" (replyRoute "f1" "t9" "bob" "hi" "" "r1" 999 c1DB).2.2).map
      Forum.updatedAt = some 999 ∧
    c1Forum.updatedAt = 0 ∧
    (ForumModel.findById "f1" (replyRoute "f1" "t9" "bob" "hi" "" "r1" 999 c1DB).2.2).map
      (fun g => g.forumData.threads) = some c1Forum.forumData.threads :=
  ⟨rfl, rfl, rfl, rfl, rfl⟩

/-! ## C9 — categories and stats of the forumize pipeline -/

/-- The shape of a freshly fetched thread list (YouTube/TikTok
fetchers): replies of replies are always empty arrays. -/
def fetchShape (ts : List Thread) : Bool :=
  ts.all fun t => t.replies.all fun r => r.replies.isEmpty

mutual
/-- Every comment of the tree carries a category drawn from the five
default categories. -/
def goodCatT : Thread → Bool
  | Thread.mk _ _ _ c rs =>
    (match c with
     | some s => defaultCategories.contains s
     | none => false) && goodCatL rs

/-- Every comment of the forest carries a default category. -/
def goodCatL : List Thread → Bool
  | [] => true
  | t :: ts => goodCatT t && goodCatL ts
end

/-- The shape `forumize`'s stats object always keeps: the six numeric
fields in insertion order. -/
def mkStats (tot sp bo tox gen qu : Nat) : Stats :=
  [("totalComments", tot), ("spamCount", sp), ("botCount", bo),
   ("toxicCount", tox), ("genuineCount", gen), ("questionCount", qu)]

theorem initStats_eq : initStats = mkStats 0 0 0 0 0 0 := rfl

theorem categoryOf_mem_defaults (text : String) :
    defaultCategories.contains (categoryOf text) = true := by
  unfold categoryOf
  dsimp only
  repeat' split
  all_goals decide

theorem bump_cat (s : String) (hmem : defaultCategories.contains s = true)
    (a b c d e f : Nat) :
    ∃ b1 c1 d1 e1 f1,
      bumpKey (mkStats a b c d e f) (s ++ "Count") =
        some (mkStats a b1 c1 d1 e1 f1) ∧
      b1 + c1 + d1 + e1 + f1 = b + c + d + e + f + 1 := by
  have hs : s = "spam" ∨ s = "bot" ∨ s = "toxic" ∨ s = "genuine" ∨ s = "question" := by
    simpa [defaultCategories] using hmem
  rcases hs with rfl | rfl | rfl | rfl | rfl
  · exact ⟨b + 1, c, d, e, f, rfl, by omega⟩
  · exact ⟨b, c + 1, d, e, f, rfl, by omega⟩
  · exact ⟨b, c, d + 1, e, f, rfl, by omega⟩
  · exact ⟨b, c, d, e + 1, f, rfl, by omega⟩
  · exact ⟨b, c, d, e, f + 1, rfl, by omega⟩

mutual
theorem countT_sum : ∀ (t : Thread) (a b c d e f : Nat), goodCatT t = true →
    ∃ b2 c2 d2 e2 f2,
      countT (mkStats a b c d e f) t =
        some (mkStats (a + sizeT t) b2 c2 d2 e2 f2) ∧
      b2 + c2 + d2 + e2 + f2 = b + c + d + e + f + sizeT t
  | Thread.mk i au x cat rs, a, b, c, d, e, f, h => by
    cases cat with
    | none => simp [goodCatT] at h
    | some s =>
      have hparts : defaultCategories.contains s = true ∧ goodCatL rs = true := by
        simpa [goodCatT] using h
      obtain ⟨b1, c1, d1, e1, f1, hb, hsum1⟩ :=
        bump_cat s hparts.1 (a + 1) b c d e f
      cases rs with
      | nil =>
        refine ⟨b1, c1, d1, e1, f1, ?_, ?_⟩
        · simp only [countT]
          rw [show bumpKey (mkStats a b c d e f) "totalComments" = some (mkStats (a + 1) b c d e f) from rfl]
          rw [Option.bind_eq_bind, Option.some_bind]
          rw [show categoryKey (some s) = s ++ "Count" from rfl, hb]
          rw [Option.some_bind]
          rw [show sizeT (Thread.mk i au x (some s) []) = 1 from rfl]
          rfl
        · rw [show sizeT (Thread.mk i au x (some s) []) = 1 from rfl]
          omega
      | cons r rs2 =>
        obtain ⟨b2, c2, d2, e2, f2, hc, hsum2⟩ :=
          countL_sum (r :: rs2) (a + 1) b1 c1 d1 e1 f1 hparts.2
        refine ⟨b2, c2, d2, e2, f2, ?_, ?_⟩
        · simp only [countT]
          rw [show bumpKey (mkStats a b c d e f) "totalComments" = some (mkStats (a + 1) b c d e f) from rfl]
          rw [Option.bind_eq_bind, Option.some_bind]
          rw [show categoryKey (some s) = s ++ "Count" from rfl, hb]
          rw [Option.some_bind]
          rw [show (if (r :: rs2).isEmpty = true then (pure (mkStats (a + 1) b1 c1 d1 e1 f1) : Option Stats) else countL (mkStats (a + 1) b1 c1 d1 e1 f1) (r :: rs2)) = countL (mkStats (a + 1) b1 c1 d1 e1 f1) (r :: rs2) from rfl]
          rw [hc]
          rw [show sizeT (Thread.mk i au x (some s) (r :: rs2)) = 1 + sizeL (r :: rs2) from rfl]
          rw [show a + 1 + sizeL (r :: rs2) = a + (1 + sizeL (r :: rs2)) from by omega]
        · rw [show sizeT (Thread.mk i au x (some s) (r :: rs2)) = 1 + sizeL (r :: rs2) from rfl]
          omega

theorem countL_sum : ∀ (ts : List Thread) (a b c d e f : Nat), goodCatL ts = true →
    ∃ b2 c2 d2 e2 f2,
      countL (mkStats a b c d e f) ts =
        some (mkStats (a + sizeL ts) b2 c2 d2 e2 f2) ∧
      b2 + c2 + d2 + e2 + f2 = b + c + d + e + f + sizeL ts
  | [], a, b, c, d, e, f, _ =>
    ⟨b, c, d, e, f, by rw [show sizeL [] = 0 from rfl]; rfl,
     by rw [show sizeL [] = 0 from rfl]; omega⟩
  | t :: ts, a, b, c, d, e, f, h => by
    have hparts : goodCatT t = true ∧ goodCatL ts = true := by
      simpa [goodCatL] using h
    obtain ⟨b1, c1, d1, e1, f1, ht, hsum1⟩ := countT_sum t a b c d e f hparts.1
    obtain ⟨b2, c2, d2, e2, f2, hts, hsum2⟩ :=
      countL_sum ts (a + sizeT t) b1 c1 d1 e1 f1 hparts.2
    refine ⟨b2, c2, d2, e2, f2, ?_, ?_⟩
    · simp only [countL]
      rw [ht]
      rw [Option.bind_eq_bind, Option.some_bind]
      rw [hts]
      rw [show sizeL (t :: ts) = sizeT t + sizeL ts from rfl]
      rw [show a + sizeT t + sizeL ts = a + (sizeT t + sizeL ts) from by omega]
    · rw [show sizeL (t :: ts) = sizeT t + sizeL ts from rfl]
      omega
end

theorem goodCatL_classify_flat :
    ∀ rs : List Thread, (rs.all fun r => r.replies.isEmpty) = true →
      goodCatL (classifyComments rs) = true
  | [], _ => rfl
  | r :: rs, h => by
    have hparts : r.replies.isEmpty = true ∧ (rs.all fun x => x.replies.isEmpty) = true := by
      simpa [List.all_cons] using h
    cases r with
    | mk i a x c rp =>
      have hrp : rp = [] := by
        simpa [Thread.replies, List.isEmpty_iff] using hparts.1
      subst hrp
      simp only [classifyComments, List.map_cons, goodCatL, goodCatT,
        categoryOf_mem_defaults, Bool.true_and]
      have := goodCatL_classify_flat rs hparts.2
      simpa [classifyComments, goodCatL] using this

theorem goodCatL_classifyThreadsAndReplies :
    ∀ threads : List Thread, fetchShape threads = true →
      goodCatL (classifyThreadsAndReplies threads) = true
  | [], _ => rfl
  | t :: ts, h => by
    have hparts : (t.replies.all fun r => r.replies.isEmpty) = true ∧
        fetchShape ts = true := by
      simpa [fetchShape, List.all_cons] using h
    have htail := goodCatL_classifyThreadsAndReplies ts hparts.2
    cases t with
    | mk i a x c rs =>
      simp only [classifyThreadsAndReplies, classifyComments, List.map_cons, goodCatL]
      rw [Bool.and_eq_true]
      refine ⟨?_, ?_⟩
      · cases hrs : rs.isEmpty with
        | true =>
          have : rs = [] := by simpa [List.isEmpty_iff] using hrs
          subst this
          simp [goodCatT, goodCatL]
          simpa [defaultCategories] using categoryOf_mem_defaults x
        | false =>
          simp only [hrs, Bool.false_eq_true, if_false, goodCatT,
            categoryOf_mem_defaults, Bool.true_and]
          exact goodCatL_classify_flat rs (by simpa [Thread.replies] using hparts.1)
      · simpa [classifyThreadsAndReplies, classifyComments, goodCatL] using htail

/-- C9: on fetched input (replies of replies empty), the forumize
pipeline gives every comment and reply a category among the five
default categories, the stats object keeps exactly its six initial
numeric fields, and `totalComments` equals
`spamCount + botCount + toxicCount + genuineCount + questionCount`. -/
theorem C9_forumize_stats (threads : List Thread)
    (hshape : fetchShape threads = true) :
    goodCatL (classifyThreadsAndReplies threads) = true ∧
    ∃ sp bo tox gen qu,
      forumizeCore threads =
        some (classifyThreadsAndReplies threads,
          mkStats (sp + bo + tox + gen + qu) sp bo tox gen qu) := by
  have hg := goodCatL_classifyThreadsAndReplies threads hshape
  refine ⟨hg, ?_⟩
  obtain ⟨b2, c2, d2, e2, f2, hc, hsum⟩ :=
    countL_sum (classifyThreadsAndReplies threads) 0 0 0 0 0 0 hg
  refine ⟨b2, c2, d2, e2, f2, ?_⟩
  unfold forumizeCore
  dsimp only
  rw [initStats_eq, hc]
  have hz : (0 : Nat) + sizeL (classifyThreadsAndReplies threads) =
      b2 + c2 + d2 + e2 + f2 := by omega
  rw [hz]
  rfl

/-- Witness for C9 on a single fetched comment. -/
theorem C9_forumize_stats_witness :
    fetchShape [Thread.mk "t1" "a" "cool?" none []] = true ∧
    (goodCatL (classifyThreadsAndReplies [Thread.mk "t1" "a" "cool?" none []]) = true ∧
     ∃ sp bo tox gen qu,
       forumizeCore [Thread.mk "t1" "a" "cool?" none []] =
         some (classifyThreadsAndReplies [Thread.mk "t1" "a" "cool?" none []],
           mkStats (sp + bo + tox + gen + qu) sp bo tox gen qu)) :=
  ⟨by decide, C9_forumize_stats [Thread.mk "t1" "a" "cool?" none []] (by decide)⟩

end Forumyzer
